import Mathlib

/-!
Verification development for the single-file YouTube shorts uploader
(src/uploader.py).  The Python source is shallowly embedded: pure
computations become Lean functions, subprocess and network interactions
become explicit parameters describing their outcomes, and filesystem side
effects become explicit effect traces.  Durations are modelled as rational
numbers (ffprobe reports decimal seconds), machine strings as Lean strings.
-/

namespace Uploader

/-- Python exceptions that the embedded fragments can raise.
nameError models a NameError from an undefined identifier; uncaught models
any exception raised inside upload_video that is not an HttpError and hence
propagates out of the retry loop. -/
inductive PyErr
  | nameError
  | uncaught
  deriving DecidableEq, Repr

/-! Transfer engine: upload_video, lines 171-198 of src/uploader.py.
The loop body calls request.next_chunk once per iteration; the outcome of
each such call is modelled by an Outcome value indexed by the 0-based loop
variable attempt. -/

/-- Outcome of one next_chunk call inside upload_video:
finished models a response carrying an id field (the function returns True);
progressOnly models a chunk accepted without a final response (the loop goes
on without sleeping); httpErr st models an HttpError with HTTP status st
(caught at line 194, followed by time.sleep(2 ** attempt)); pyExn models any
other exception, which no handler catches. -/
inductive Outcome
  | finished
  | progressOnly
  | httpErr (status : Nat)
  | pyExn
  deriving DecidableEq, Repr

/-- Result of a run of upload_video: whether it returned True, how many
next_chunk attempts were made, and the list of sleep durations (seconds)
performed after failed attempts, in order. -/
structure UploadResult where
  success : Bool
  attempts : Nat
  sleeps : List Nat
  deriving DecidableEq, Repr

/-- Loop of upload_video (lines 187-197): for attempt in range(maxRetries).
fuel is the number of remaining iterations, so the current 0-based loop
index is maxRetries - fuel.  On httpErr the code sleeps 2 ^ attempt seconds
and retries; on progressOnly it loops again without sleeping; on finished it
returns True; when the range is exhausted it returns False (line 198). -/
def uploadGo (o : Nat → Outcome) (maxRetries : Nat) : Nat → Except PyErr UploadResult
  | 0 => .ok ⟨false, 0, []⟩
  | fuel + 1 =>
    let attempt := maxRetries - (fuel + 1)
    match o attempt with
    | .finished => .ok ⟨true, 1, []⟩
    | .progressOnly =>
      match uploadGo o maxRetries fuel with
      | .ok r => .ok ⟨r.success, r.attempts + 1, r.sleeps⟩
      | .error e => .error e
    | .httpErr _ =>
      match uploadGo o maxRetries fuel with
      | .ok r => .ok ⟨r.success, r.attempts + 1, 2 ^ attempt :: r.sleeps⟩
      | .error e => .error e
    | .pyExn => .error .uncaught

/-- Embedding of upload_video, parameterised by the per-attempt outcomes of
the chunked transfer and by CONFIG MAX_RETRIES (10 in the source). -/
def upload_video (o : Nat → Outcome) (maxRetries : Nat) : Except PyErr UploadResult :=
  uploadGo o maxRetries maxRetries

/-- CONFIG MAX_RETRIES from line 28 of the source. -/
def MAX_RETRIES : Nat := 10

/-! Segmenter: get_duration (lines 51-74) and split_video (lines 76-123). -/

/-- MAX_SHORT_LENGTH = 59 seconds, line 32 of the source.  The spec calls
this constant MAX_PART_SECONDS. -/
def MAX_SHORT_LENGTH : ℚ := 59

/-- Outcome of the ffprobe subprocess as consumed by get_duration:
notJson models stdout that json.loads rejects; jsonNoFormat models a JSON
document without a format key (line 66); formatNoDuration models a format
object without a duration key, where the code passes the default 59 to
float (line 70); durationUnparsable models a duration value that float
rejects, raising inside the try block; durationVal q models a duration that
parses to the rational q. -/
inductive ProbeOutput
  | notJson
  | jsonNoFormat
  | formatNoDuration
  | durationUnparsable
  | durationVal (q : ℚ)
  deriving DecidableEq

/-- Embedding of get_duration (lines 51-74).  Every branch of the try and
of the except handler returns a value, so the result is always Except.ok;
the fallback paths all return 59. -/
def get_duration (o : ProbeOutput) : Except PyErr ℚ :=
  match o with
  | .notJson => .ok 59
  | .jsonNoFormat => .ok 59
  | .formatNoDuration => .ok 59
  | .durationUnparsable => .ok 59
  | .durationVal q => .ok q

/-- Number of parts computed at line 93: int(duration // 59) + 1, taken in
the branch where duration exceeds MAX_SHORT_LENGTH. -/
def totalParts (d : ℚ) : Nat := ⌊d / MAX_SHORT_LENGTH⌋.toNat + 1

/-- Time ranges of the parts returned by split_video for a video of
duration d, each as a PartSpec.  A video at most 59 seconds long is
returned whole with no re-encoding (lines 88-91); otherwise part i (0-based
here, 1-based in the part file names) is cut with ffmpeg -ss i*59 -t 59
(lines 102-117), so the slice of the source it covers starts at i*59 and
has length min 59 (d - i*59), the -t window clamped by the end of the
source. -/
inductive PartSpec
  | original (len : ℚ)
  | segment (start len : ℚ)
  deriving DecidableEq

/-- Parts list produced by split_video as a function of the probed
duration alone (lines 88-123): the part count and each covered time range
depend only on d and MAX_SHORT_LENGTH. -/
def split_video (d : ℚ) : List PartSpec :=
  if d ≤ MAX_SHORT_LENGTH then [.original d]
  else
    (List.range (totalParts d)).map fun i =>
      PartSpec.segment ((i : ℚ) * MAX_SHORT_LENGTH)
        (min MAX_SHORT_LENGTH (d - (i : ℚ) * MAX_SHORT_LENGTH))

/-- Filesystem and network side effects performed by the embedded code,
recorded as a trace.  fsWrite models opening a file for writing and dumping
content into it in place; fsRename models Path.rename; transcodePart
models one ffmpeg invocation; uploadPart models one call of upload_video
on a part payload; unlinkTemp models deleting a cached part file;
mkdirUploaded models the mkdir at line 207. -/
inductive Eff
  | mkdirUploaded
  | transcodePart (video : String) (idx : Nat)
  | uploadPart (video : String) (idx : Nat)
  | fsWrite (path : String) (content : List (String × List Nat))
  | fsRename (src dst : String)
  | unlinkTemp (video : String) (idx : Nat)
  deriving DecidableEq

/-- Embedding of split_video with its side effects (lines 76-123) for a
video named v of duration d: onDisk i tells whether the part file with
1-based index i+1 already exists in TempParts, in which case it is reused
and no ffmpeg run happens for it (lines 97-100); otherwise one transcode
effect is recorded (line 120).  The returned parts list is the same in
both branches of the cache test, because cached and fresh parts share the
same deterministic path and time range. -/
def splitVideoRun (v : String) (d : ℚ) (onDisk : Nat → Bool) :
    List PartSpec × List Eff :=
  if d ≤ MAX_SHORT_LENGTH then ([.original d], [])
  else
    ((List.range (totalParts d)).map fun i =>
        PartSpec.segment ((i : ℚ) * MAX_SHORT_LENGTH)
          (min MAX_SHORT_LENGTH (d - (i : ℚ) * MAX_SHORT_LENGTH)),
     ((List.range (totalParts d)).filter fun i => !(onDisk i)).map fun i =>
        Eff.transcodePart v (i + 1))

/-! Title sanitizer: clean_title, lines 163-166.  The first re.sub deletes
every maximal run of characters outside the class \w \s - . , ! ? & @ #,
which acts on the string exactly like filtering out each disallowed
character.  The second re.sub replaces every maximal run of whitespace by
one space character, and strip removes leading and trailing whitespace.
The regex classes are modelled by Boolean character predicates; the ASCII
fragment of the Python classes is spelled out, which is all the proofs
depend on together with the membership of the plain space character. -/

/-- Model of the regex class \s: ASCII whitespace characters. -/
def isPySpace (c : Char) : Bool :=
  c = ' ' || c = '\t' || c = '\n' || c = '\r' || c = '\x0b' || c = '\x0c'

/-- Model of the regex class \w: alphanumeric characters and underscore. -/
def isPyWord (c : Char) : Bool := c.isAlphanum || c = '_'

/-- Characters kept by the first re.sub of clean_title (line 164): word
characters, whitespace, and the punctuation - . , ! ? & @ #. -/
def allowedChar (c : Char) : Bool :=
  isPyWord c || isPySpace c || c = '-' || c = '.' || c = ',' ||
    c = '!' || c = '?' || c = '&' || c = '@' || c = '#'

/-- Second re.sub of clean_title (line 165): each maximal run of
whitespace becomes a single space.  The Boolean argument records whether
the previous character belonged to a whitespace run. -/
def collapseWs : Bool → List Char → List Char
  | _, [] => []
  | inRun, c :: cs =>
    if isPySpace c then
      if inRun then collapseWs true cs else ' ' :: collapseWs true cs
    else c :: collapseWs false cs

/-- Leading-whitespace removal, the left half of str.strip. -/
def lstripChars (l : List Char) : List Char := l.dropWhile isPySpace

/-- Trailing-whitespace removal, the right half of str.strip. -/
def rstripChars (l : List Char) : List Char :=
  (l.reverse.dropWhile isPySpace).reverse

/-- Character-list body of clean_title: filter out disallowed characters,
collapse whitespace runs to single spaces, then strip both ends. -/
def cleanChars (s : List Char) : List Char :=
  rstripChars (lstripChars (collapseWs false (s.filter allowedChar)))

/-- Embedding of clean_title (lines 163-166). -/
def clean_title (s : String) : String := ⟨cleanChars s.data⟩

/-! Progress ledger and run orchestrator: uploader_once, lines 203-263.
The JSON ledger file part_progress.json holds a mapping from video file
name to the list of 1-based part indices already uploaded; json objects
preserve insertion order and have unique keys, so the mapping is modelled
as an association list. -/

/-- In-memory form of the progress ledger. -/
abbrev Ledger := List (String × List Nat)

/-- Python dict lookup progress.get(name, []), line 224. -/
def ledgerLookup : Ledger → String → List Nat
  | [], _ => []
  | e :: p, v => if e.1 = v then e.2 else ledgerLookup p v

/-- Python dict assignment progress[name] = indices, line 256: replaces
the value of an existing key in place, else appends a new entry. -/
def ledgerInsert : Ledger → String → List Nat → Ledger
  | [], v, x => [(v, x)]
  | e :: p, v, x => if e.1 = v then (v, x) :: p else e :: ledgerInsert p v x

/-- Python dict removal progress.pop(name, None), line 240. -/
def ledgerPop : Ledger → String → Ledger
  | [], _ => []
  | e :: p, v => if e.1 = v then p else e :: ledgerPop p v

/-- Names bound at module level in src/uploader.py: the imports of lines
1-13 and the top-level definitions. -/
def moduleGlobals : List String :=
  ["os", "time", "logging", "re", "Path", "build", "HttpError",
   "MediaFileUpload", "Credentials", "InstalledAppFlow", "Request",
   "subprocess", "json", "CONFIG", "MAX_SHORT_LENGTH", "write_secret",
   "get_duration", "split_video", "get_authenticated_service",
   "parse_txt_file", "clean_title", "upload_video", "uploader_once"]

/-- Local names assigned in uploader_once before line 210 executes:
youtube (line 204), clips_root (205), uploaded_root (206) and
PROGRESS_FILE (209). -/
def localsAtLoad : List String :=
  ["youtube", "clips_root", "uploaded_root", "PROGRESS_FILE"]

/-- Local names that can have been assigned in uploader_once by the time
line 241 executes: the loads-step names plus progress (212 or 214), videos
(217), and the loop-body names video, parts, uploaded_indices, next_index,
i, temp_dir, f (222-238). -/
def localsAtArchiveWrite : List String :=
  localsAtLoad ++
    ["progress", "videos", "video", "parts", "uploaded_indices",
     "next_index", "i", "temp_dir", "f"]

/-- Python name resolution for an identifier read inside uploader_once:
the name must be bound in the local scope or at module level, otherwise
evaluating it raises NameError. -/
def resolvesName (locals : List String) (n : String) : Bool :=
  locals.contains n || moduleGlobals.contains n

/-- State of the world an invocation of uploader_once runs against:
backlog is the sorted list of *.mp4 file names in Videos (line 217 sorts
the glob result); durations gives the ffprobe duration of each video;
ledgerFile is the content of part_progress.json when the file exists;
tempOnDisk v i tells whether the cached part file of 0-based index i for
video v exists; uploadOk v i tells whether upload_video would return True
for 1-based part i of video v. -/
structure FsState where
  backlog : List String
  durations : String → ℚ
  ledgerFile : Option Ledger
  tempOnDisk : String → Nat → Bool
  uploadOk : String → Nat → Bool

/-- Search of lines 227-231: the first 1-based index in 1..numParts that
is not in the uploaded list, none when every part is recorded. -/
def firstIncomplete (uploaded : List Nat) (numParts : Nat) : Option Nat :=
  ((List.range numParts).map fun i => i + 1).find? fun i => !(uploaded.contains i)

/-- Commit step of uploader_once, lines 254-260: on a successful upload
the next index is appended to the uploaded list, the mapping is updated,
and the whole ledger is immediately dumped into part_progress.json by
opening the file for writing in place. -/
def commitStep (progress : Ledger) (video : String) (uploaded : List Nat)
    (nextIndex : Nat) : Ledger × List Eff :=
  let uploaded2 := uploaded ++ [nextIndex]
  let progress2 := ledgerInsert progress video uploaded2
  (progress2, [Eff.fsWrite "part_progress.json" progress2])

/-- Body of the for loop over videos, lines 222-263, as it would execute
were the name progress_file at line 241 bound: split the video, find the
first incomplete part, then either archive (rename to Videos/Uploaded,
unlink cached parts, drop the ledger entry, rewrite the ledger file, and
continue with the next video) or upload that one part and break, committing
first when the upload succeeded.  Line 241 reads the undefined name
progress_file, so the archive branch checks its resolution and raises
NameError there, after the rename and the unlinks but before the ledger
file is rewritten. -/
def processVideos (fs : FsState) : Ledger → List String → Except PyErr Unit × List Eff
  | _, [] => (.ok (), [])
  | progress, video :: rest =>
    let d := fs.durations video
    let (parts, splitEffs) := splitVideoRun video d (fs.tempOnDisk video)
    let uploaded := ledgerLookup progress video
    match firstIncomplete uploaded parts.length with
    | none =>
      let archEffs :=
        Eff.fsRename ("Videos/" ++ video) ("Videos/Uploaded/" ++ video) ::
          ((List.range parts.length).filter fun i => fs.tempOnDisk video i).map
            fun i => Eff.unlinkTemp video (i + 1)
      let progress2 := ledgerPop progress video
      if resolvesName localsAtArchiveWrite "progress_file" then
        let (r, effs) := processVideos fs progress2 rest
        (r, splitEffs ++ archEffs ++
          Eff.fsWrite "part_progress.json" progress2 :: effs)
      else (.error .nameError, splitEffs ++ archEffs)
    | some next =>
      if fs.uploadOk video next then
        let (progress2, commitEffs) := commitStep progress video uploaded next
        let _ := progress2
        (.ok (), splitEffs ++ Eff.uploadPart video next :: commitEffs)
      else (.ok (), splitEffs ++ [Eff.uploadPart video next])

/-- Embedding of uploader_once, lines 203-263, starting after the external
authentication step of line 204 (out of scope per the spec).  Line 207
creates Videos/Uploaded; line 209 binds PROGRESS_FILE; line 210 then reads
the identifier progress_file, which is bound neither locally nor at module
level, so the invocation raises NameError there.  The branch taken were
that name bound embeds the rest of the function, lines 210-263. -/
def uploader_once (fs : FsState) : Except PyErr Unit × List Eff :=
  let effs := [Eff.mkdirUploaded]
  if resolvesName localsAtLoad "progress_file" then
    let progress := fs.ledgerFile.getD []
    if fs.backlog.isEmpty then (.ok (), effs)
    else
      let (r, es) := processVideos fs progress fs.backlog
      (r, effs ++ es)
  else (.error .nameError, effs)

/-! Auxiliary predicates used by the theorems below. -/

/-- Shape required by the spec for an atomic ledger persist, modelled from
the spec words write-temp-then-rename: the trace writes the content to a
temporary name distinct from part_progress.json and then renames that
temporary file onto part_progress.json. -/
def writeTempThenRename (tr : List Eff) : Prop :=
  ∃ tmp c, tr = [Eff.fsWrite tmp c, Eff.fsRename tmp "part_progress.json"] ∧
    tmp ≠ "part_progress.json"

/-- First character, when there is one, is not whitespace. -/
def headNotSpace : List Char → Prop
  | [] => True
  | c :: _ => isPySpace c = false

/-- Character lists in which every whitespace character is a plain space
and no two whitespace characters are adjacent: the shape produced by the
whitespace-collapsing pass of clean_title. -/
inductive WellSpaced : List Char → Prop
  | nil : WellSpaced []
  | cons (c : Char) (cs : List Char) (h : isPySpace c = false)
      (hw : WellSpaced cs) : WellSpaced (c :: cs)
  | blank_nil : WellSpaced [' ']
  | blank_cons (c : Char) (cs : List Char) (h : isPySpace c = false)
      (hw : WellSpaced (c :: cs)) : WellSpaced (' ' :: c :: cs)

/-- Attempt outcomes of the retry scenario from the spec: transient HTTP
failures on the first two attempts, then a final response. -/
def failTwiceStream : Nat → Outcome :=
  fun n => if n < 2 then .httpErr 503 else if n = 2 then .finished else .progressOnly

/-- Filesystem state with one three-part video whose first part is already
committed in the ledger file. -/
def fsPartOneDone : FsState where
  backlog := ["story1.mp4"]
  durations := fun _ => 130
  ledgerFile := some [("story1.mp4", [1])]
  tempOnDisk := fun _ _ => false
  uploadOk := fun _ _ => true

/-- Filesystem state in which the ledger file does not exist. -/
def fsNoLedger : FsState where
  backlog := ["story1.mp4"]
  durations := fun _ => 30
  ledgerFile := none
  tempOnDisk := fun _ _ => false
  uploadOk := fun _ _ => true

/-- Filesystem state whose first video is a single-part item with that
part already recorded complete in the ledger file. -/
def fsAllDone : FsState where
  backlog := ["done.mp4"]
  durations := fun _ => 30
  ledgerFile := some [("done.mp4", [1])]
  tempOnDisk := fun _ _ => false
  uploadOk := fun _ _ => true

/-- Arbitrary filesystem state used to instantiate universally quantified
statements about uploader_once. -/
def fsAny : FsState where
  backlog := []
  durations := fun _ => 0
  ledgerFile := none
  tempOnDisk := fun _ _ => false
  uploadOk := fun _ _ => false

/-! Lemmas about the title sanitizer. -/

theorem isPySpace_blank : isPySpace ' ' = true := rfl

theorem headNotSpace_collapseWs_true (l : List Char) :
    headNotSpace (collapseWs true l) := by
  induction l with
  | nil => trivial
  | cons c cs ih =>
    by_cases h : isPySpace c = true
    · simpa [collapseWs, h] using ih
    · simp only [Bool.not_eq_true] at h
      simp [collapseWs, h, headNotSpace]

theorem wellSpaced_collapseWs (l : List Char) :
    ∀ b, WellSpaced (collapseWs b l) := by
  induction l with
  | nil => intro b; exact .nil
  | cons c cs ih =>
    intro b
    by_cases h : isPySpace c = true
    · cases b with
      | true => simpa [collapseWs, h] using ih true
      | false =>
        have hw := ih true
        have hh := headNotSpace_collapseWs_true cs
        simp only [collapseWs, h, if_true]
        cases hx : collapseWs true cs with
        | nil => exact .blank_nil
        | cons d ds =>
          rw [hx] at hw hh
          exact .blank_cons d ds hh hw
    · simp only [Bool.not_eq_true] at h
      simp only [collapseWs, h]
      exact .cons c _ h (ih false)

theorem wellSpaced_dropWhile {l : List Char} (h : WellSpaced l) :
    WellSpaced (l.dropWhile isPySpace) := by
  induction h with
  | nil => exact .nil
  | cons c cs hc hw ih =>
    rw [List.dropWhile_cons, hc]
    simp only [Bool.false_eq_true, if_false]
    exact .cons c cs hc hw
  | blank_nil =>
    rw [List.dropWhile_cons, isPySpace_blank]
    simp only [if_true]
    exact .nil
  | blank_cons c cs hc hw ih =>
    rw [List.dropWhile_cons, isPySpace_blank]
    simp only [if_true]
    rw [List.dropWhile_cons, hc]
    simp only [Bool.false_eq_true, if_false]
    exact hw

theorem wellSpaced_prefixClosed {l : List Char} (h : WellSpaced l) :
    ∀ p, p <+: l → WellSpaced p := by
  induction h with
  | nil =>
    intro p hp
    rw [List.prefix_nil.mp hp]
    exact .nil
  | cons c cs hc hw ih =>
    intro p hp
    cases p with
    | nil => exact .nil
    | cons d p2 =>
      obtain ⟨rfl, hp2⟩ := List.cons_prefix_cons.mp hp
      exact .cons d p2 hc (ih p2 hp2)
  | blank_nil =>
    intro p hp
    cases p with
    | nil => exact .nil
    | cons d p2 =>
      obtain ⟨rfl, hp2⟩ := List.cons_prefix_cons.mp hp
      rw [List.prefix_nil.mp hp2]
      exact .blank_nil
  | blank_cons c cs hc hw ih =>
    intro p hp
    cases p with
    | nil => exact .nil
    | cons d p2 =>
      obtain ⟨rfl, hp2⟩ := List.cons_prefix_cons.mp hp
      cases p2 with
      | nil => exact .blank_nil
      | cons e p3 =>
        obtain ⟨rfl, hp3⟩ := List.cons_prefix_cons.mp hp2
        exact .blank_cons e p3 hc (ih (e :: p3) (List.cons_prefix_cons.mpr ⟨rfl, hp3⟩))

theorem rstripChars_isPrefixOf (l : List Char) : rstripChars l <+: l := by
  obtain ⟨t, ht⟩ := List.dropWhile_suffix (l := l.reverse) isPySpace
  refine ⟨t.reverse, ?_⟩
  rw [rstripChars, ← List.reverse_append, ht, List.reverse_reverse]

theorem headNotSpace_dropWhile (l : List Char) :
    headNotSpace (l.dropWhile isPySpace) := by
  induction l with
  | nil => trivial
  | cons c cs ih =>
    by_cases h : isPySpace c = true
    · simpa [List.dropWhile_cons, h] using ih
    · simp only [Bool.not_eq_true] at h
      simp [List.dropWhile_cons, h, headNotSpace]

theorem headNotSpace_prefixClosed {p l : List Char} (hp : p <+: l)
    (h : headNotSpace l) : headNotSpace p := by
  cases p with
  | nil => trivial
  | cons d p2 =>
    obtain ⟨t, ht⟩ := hp
    subst ht
    exact h

theorem dropWhile_eq_self_of_headNotSpace {l : List Char}
    (h : headNotSpace l) : l.dropWhile isPySpace = l := by
  cases l with
  | nil => rfl
  | cons c cs =>
    rw [List.dropWhile_cons, h]
    simp

theorem mem_collapseWs {c : Char} {l : List Char} :
    ∀ b, c ∈ collapseWs b l → c = ' ' ∨ c ∈ l := by
  induction l with
  | nil => intro b h; simp [collapseWs] at h
  | cons d cs ih =>
    intro b h
    by_cases hd : isPySpace d = true
    · cases b with
      | true =>
        simp only [collapseWs, hd, if_true] at h
        rcases ih true h with h1 | h1
        · exact .inl h1
        · exact .inr (List.mem_cons_of_mem d h1)
      | false =>
        simp only [collapseWs, hd, if_true] at h
        rcases List.mem_cons.mp h with h1 | h1
        · exact .inl h1
        · rcases ih true h1 with h2 | h2
          · exact .inl h2
          · exact .inr (List.mem_cons_of_mem d h2)
    · simp only [Bool.not_eq_true] at hd
      simp only [collapseWs, hd] at h
      simp only [Bool.false_eq_true, if_false] at h
      rcases List.mem_cons.mp h with h1 | h1
      · exact .inr (h1 ▸ List.mem_cons_self d cs)
      · rcases ih false h1 with h2 | h2
        · exact .inl h2
        · exact .inr (List.mem_cons_of_mem d h2)

theorem mem_cleanChars_allowed {c : Char} {s : List Char}
    (h : c ∈ cleanChars s) : allowedChar c = true := by
  have h1 : c ∈ lstripChars (collapseWs false (s.filter allowedChar)) :=
    (rstripChars_isPrefixOf _).subset h
  have h2 : c ∈ collapseWs false (s.filter allowedChar) :=
    (List.dropWhile_suffix isPySpace).subset h1
  rcases mem_collapseWs false h2 with h3 | h3
  · subst h3; decide
  · exact (List.mem_filter.mp h3).2

theorem collapseWs_eq_self {l : List Char} (h : WellSpaced l) :
    collapseWs false l = l := by
  induction h with
  | nil => rfl
  | cons c cs hc hw ih => simp [collapseWs, hc, ih]
  | blank_nil => rfl
  | blank_cons c cs hc hw ih =>
    simp only [collapseWs, isPySpace_blank, if_true, Bool.false_eq_true,
      if_false, hc] at ih ⊢
    simpa using ih

theorem wellSpaced_cleanChars (s : List Char) : WellSpaced (cleanChars s) :=
  wellSpaced_prefixClosed
    (wellSpaced_dropWhile (wellSpaced_collapseWs (s.filter allowedChar) false))
    _ (rstripChars_isPrefixOf _)

theorem headNotSpace_cleanChars (s : List Char) : headNotSpace (cleanChars s) :=
  headNotSpace_prefixClosed (rstripChars_isPrefixOf _)
    (headNotSpace_dropWhile (collapseWs false (s.filter allowedChar)))

theorem headNotSpace_cleanChars_reverse (s : List Char) :
    headNotSpace (cleanChars s).reverse := by
  rw [cleanChars, rstripChars, List.reverse_reverse]
  exact headNotSpace_dropWhile _

theorem cleanChars_idem (s : List Char) : cleanChars (cleanChars s) = cleanChars s := by
  have h1 : (cleanChars s).filter allowedChar = cleanChars s :=
    List.filter_eq_self.mpr fun c hc => mem_cleanChars_allowed hc
  have h2 : collapseWs false (cleanChars s) = cleanChars s :=
    collapseWs_eq_self (wellSpaced_cleanChars s)
  have h3 : lstripChars (cleanChars s) = cleanChars s :=
    dropWhile_eq_self_of_headNotSpace (headNotSpace_cleanChars s)
  have h4 : rstripChars (cleanChars s) = cleanChars s := by
    rw [rstripChars, dropWhile_eq_self_of_headNotSpace
      (headNotSpace_cleanChars_reverse s), List.reverse_reverse]
  show rstripChars (lstripChars (collapseWs false ((cleanChars s).filter allowedChar))) = cleanChars s
  rw [h1, h2, h3, h4]

/-- Lookup after a dict assignment of the same key returns the assigned
value. -/
theorem ledgerLookup_ledgerInsert (p : Ledger) (v : String) (x : List Nat) :
    ledgerLookup (ledgerInsert p v x) v = x := by
  induction p with
  | nil => simp [ledgerInsert, ledgerLookup]
  | cons e p ih =>
    by_cases h : e.1 = v
    · simp [ledgerInsert, ledgerLookup, h]
    · simp [ledgerInsert, ledgerLookup, h, ih]

/-! Claim theorems. -/

/-- C9: the title sanitizer is idempotent: cleaning an already cleaned
string returns it unchanged. -/
theorem clean_title_idempotent (s : String) :
    clean_title (clean_title s) = clean_title s := by
  show (⟨cleanChars (cleanChars s.data)⟩ : String) = ⟨cleanChars s.data⟩
  exact congrArg _ (cleanChars_idem s.data)

/-- C2 counterexample: with transient failures on attempts 1 and 2 and
success on attempt 3, with MAX_RETRIES = 10, the engine does make exactly 3
attempts, but the sleeps between them are 1 second then 2 seconds, not the
2 seconds then 4 seconds the claim states: the code sleeps 2 ^ attempt with
attempt counted from 0 and applies no 60-second cap. -/
theorem upload_backoff_counterexample :
    upload_video failTwiceStream 10 = .ok ⟨true, 3, [1, 2]⟩ ∧
      upload_video failTwiceStream 10 ≠ .ok ⟨true, 3, [2, 4]⟩ := by
  refine ⟨rfl, fun h => ?_⟩
  have h2 : (⟨true, 3, [1, 2]⟩ : UploadResult) = ⟨true, 3, [2, 4]⟩ :=
    Except.ok.inj h
  simp at h2

/-- C2 amended: on transient failures the engine retries the current
upload session, making up to MAX_RETRIES attempts in total and sleeping
2 ^ attempt seconds after a failed attempt with attempt counted from 0 and
no cap; with transient failures on attempts 1 and 2 followed by success on
attempt 3 and MAX_RETRIES = 10, exactly 3 attempts are made and the sleeps
between them are 1 second then 2 seconds, and when every attempt fails the
engine returns failure after 10 attempts with sleeps growing 1, 2, 4, ...
512 seconds. -/
theorem upload_backoff_amended (o : Nat → Outcome) (s1 s2 : Nat)
    (h0 : o 0 = .httpErr s1) (h1 : o 1 = .httpErr s2) (h2 : o 2 = .finished) :
    upload_video o 10 = .ok ⟨true, 3, [1, 2]⟩ ∧
      upload_video (fun _ => Outcome.httpErr 503) 10 =
        .ok ⟨false, 10, [1, 2, 4, 8, 16, 32, 64, 128, 256, 512]⟩ := by
  constructor
  · simp [upload_video, uploadGo, h0, h1, h2]
  · rfl

/-- C2 amended, witness: the amended statement instantiated on the
concrete outcome stream that fails on the first two attempts and finishes
on the third. -/
theorem upload_backoff_amended_witness :
    upload_video failTwiceStream 10 = .ok ⟨true, 3, [1, 2]⟩ :=
  (upload_backoff_amended failTwiceStream 503 503 rfl rfl rfl).1

/-- C3 counterexample: an upload whose every attempt raises an HttpError
with authentication status 401 is retried like any transient failure: the
engine makes all 10 attempts with backoff instead of surfacing the failure
immediately after 1 attempt. -/
theorem upload_auth_retried_counterexample :
    upload_video (fun _ => Outcome.httpErr 401) 10 =
      .ok ⟨false, 10, [1, 2, 4, 8, 16, 32, 64, 128, 256, 512]⟩ ∧
      (10 : Nat) ≠ 1 := ⟨rfl, by decide⟩

/-- C3 amended: the retry loop catches every HttpError without inspecting
its status, so authentication and validation failures are retried with the
same backoff as transport failures, for all 10 attempts; only an exception
that is not an HttpError escapes the loop immediately. -/
theorem upload_no_error_classification (st : Nat) :
    upload_video (fun _ => Outcome.httpErr st) 10 =
      .ok ⟨false, 10, [1, 2, 4, 8, 16, 32, 64, 128, 256, 512]⟩ ∧
      upload_video (fun _ => Outcome.pyExn) 10 = .error .uncaught :=
  ⟨rfl, rfl⟩

/-- C4: the parts returned by split_video are a function of the probed
duration alone, independent of which cached part files exist; a duration
equal to MAX_SHORT_LENGTH yields exactly one part, the whole file with no
re-encoding, and a duration of MAX_SHORT_LENGTH + 1 yields exactly two
parts, the second covering exactly 1 second. -/
theorem split_video_deterministic_boundaries :
    (∀ (v : String) (d : ℚ) (c : Nat → Bool), (splitVideoRun v d c).1 = split_video d) ∧
      split_video MAX_SHORT_LENGTH = [.original MAX_SHORT_LENGTH] ∧
      split_video (MAX_SHORT_LENGTH + 1) =
        [.segment 0 MAX_SHORT_LENGTH, .segment MAX_SHORT_LENGTH 1] := by
  refine ⟨?_, ?_, ?_⟩
  · intro v d c
    unfold splitVideoRun split_video
    split <;> rfl
  · norm_num [split_video, MAX_SHORT_LENGTH]
  · have htp : totalParts (MAX_SHORT_LENGTH + 1) = 2 := by
      norm_num [totalParts, MAX_SHORT_LENGTH]
    rw [split_video, if_neg (by norm_num [MAX_SHORT_LENGTH]), htp]
    simp [List.range_succ, MAX_SHORT_LENGTH]

/-- C8: every probe failure path of get_duration returns normally with the
value 59, which equals MAX_SHORT_LENGTH, instead of raising; the function
returns a value on every input. -/
theorem get_duration_fallback :
    (∀ o, ∃ q, get_duration o = .ok q) ∧
      get_duration .notJson = .ok MAX_SHORT_LENGTH ∧
      get_duration .jsonNoFormat = .ok MAX_SHORT_LENGTH ∧
      get_duration .formatNoDuration = .ok MAX_SHORT_LENGTH ∧
      get_duration .durationUnparsable = .ok MAX_SHORT_LENGTH := by
  refine ⟨fun o => ?_, rfl, rfl, rfl, rfl⟩
  cases o <;> exact ⟨_, rfl⟩

/-- C10: on every filesystem state, uploader_once raises NameError at the
ledger-load step, because the identifier progress_file read at line 210 is
bound neither among the local names assigned by that point nor at module
level, while PROGRESS_FILE is a local; consequently the effect trace of
every invocation is just the mkdir of line 207: no part upload, no ledger
write and no archive rename is ever performed. -/
theorem uploader_once_always_nameError (fs : FsState) :
    uploader_once fs = (.error .nameError, [Eff.mkdirUploaded]) ∧
      resolvesName localsAtLoad "progress_file" = false ∧
      localsAtLoad.contains "PROGRESS_FILE" = true ∧
      (∀ v i, Eff.uploadPart v i ∉ (uploader_once fs).2) ∧
      (∀ p c, Eff.fsWrite p c ∉ (uploader_once fs).2) ∧
      (∀ a b, Eff.fsRename a b ∉ (uploader_once fs).2) := by
  have h : uploader_once fs = (.error .nameError, [Eff.mkdirUploaded]) := rfl
  refine ⟨h, rfl, rfl, ?_, ?_, ?_⟩ <;> intros <;> rw [h] <;> simp

/-- C1, behaviour at the failing input: with part 1 of the three-part item
story1.mp4 already committed in the ledger file, a subsequent invocation of
uploader_once raises NameError at the ledger-load step and uploads nothing
at all, rather than uploading part 2 as the claim describes. -/
theorem uploader_once_after_commit_nameError :
    uploader_once fsPartOneDone = (.error .nameError, [Eff.mkdirUploaded]) ∧
      (∀ i, Eff.uploadPart "story1.mp4" i ∉ (uploader_once fsPartOneDone).2) := by
  have h : uploader_once fsPartOneDone = (.error .nameError, [Eff.mkdirUploaded]) := rfl
  refine ⟨h, ?_⟩
  intro i
  rw [h]
  simp

/-- C6, behaviour at the failing input: with the ledger file absent,
uploader_once does not treat the missing file as the empty mapping and
proceed; it raises NameError at the very test meant to detect the missing
file, because that test reads the undefined identifier progress_file. -/
theorem uploader_once_missing_ledger_nameError :
    uploader_once fsNoLedger = (.error .nameError, [Eff.mkdirUploaded]) ∧
      fsNoLedger.ledgerFile = none := ⟨rfl, rfl⟩

/-- C7, behaviour at the failing input: with the first (and only) work
item fully recorded in the ledger file, uploader_once raises NameError at
the ledger-load step before reaching the archive branch: no rename into
Videos/Uploaded and no ledger-entry removal happens. -/
theorem uploader_once_all_done_nameError :
    uploader_once fsAllDone = (.error .nameError, [Eff.mkdirUploaded]) ∧
      (∀ a b, Eff.fsRename a b ∉ (uploader_once fsAllDone).2) := by
  have h : uploader_once fsAllDone = (.error .nameError, [Eff.mkdirUploaded]) := rfl
  refine ⟨h, ?_⟩
  intro a b
  rw [h]
  simp

/-- C5 counterexample: the commit step persists the updated ledger by one
direct in-place write of part_progress.json; its effect trace is not of
the write-temp-then-rename shape required by the claim. -/
theorem commit_not_atomic_counterexample :
    (commitStep [("story1.mp4", [1])] "story1.mp4" [1] 2).2 =
      [Eff.fsWrite "part_progress.json" [("story1.mp4", [1, 2])]] ∧
      ¬ writeTempThenRename (commitStep [("story1.mp4", [1])] "story1.mp4" [1] 2).2 := by
  refine ⟨rfl, fun ⟨tmp, c, h, hne⟩ => ?_⟩
  rw [show (commitStep [("story1.mp4", [1])] "story1.mp4" [1] 2).2 =
    [Eff.fsWrite "part_progress.json" [("story1.mp4", [1, 2])]] from rfl] at h
  simp at h

/-- C5 amended: on a successful part upload the commit step marks that one
part index complete and persists the full ledger immediately, within the
same step, by a single direct overwrite of part_progress.json; there is no
temporary file and no rename, so the persistence is not atomic-on-write. -/
theorem commitStep_immediate_direct_write (p : Ledger) (v : String)
    (u : List Nat) (n : Nat) :
    commitStep p v u n =
      (ledgerInsert p v (u ++ [n]),
        [Eff.fsWrite "part_progress.json" (ledgerInsert p v (u ++ [n]))]) ∧
      ledgerLookup (commitStep p v u n).1 v = u ++ [n] :=
  ⟨rfl, ledgerLookup_ledgerInsert p v (u ++ [n])⟩

end Uploader
